import Mathlib

/-!
Verification of `src/react/addUrlProps.js` from react-url-query.

The file is a higher-order component factory: `addUrlProps(options)` returns
`addPropsWrapper(WrappedComponent)`, whose render computes an object of
URL-derived props (`getUrlObject`) and a set of URL change handlers
(`getUrlChangeHandlerProps`, cached in the `cachedHandlers` closure variable
of `addPropsWrapper`).

Shallow embedding conventions:
- A JavaScript object with string keys is an association list
  `List (String × α)`; reads (`getKey`) take the first binding, writes
  (`setKey`) overwrite in place or append, matching property assignment.
  `Object.assign(target, source)` is `objAssign`.
- Query values are strings (`Val`).
- Optional / possibly-`undefined` values are `Option`; JavaScript truthiness
  of an object-valued slot is `Option.isSome`.
- The external collaborators that live outside `src/` — the query-string
  `parse`, the `urlQueryDecoder` factory, the `encode` function of the
  serialize module — are abstract parameters.  `updateUrlQuerySingle` (also
  outside `src/`) is modelled from the spec where a claim needs its effect.
- The mutable closure cell `cachedHandlers` of `addPropsWrapper` is the
  explicit state `WrapperState`, threaded through `getUrlChangeHandlerProps`.
  Referential identity of a generated handler set is modelled by tagging each
  freshly generated set with a fresh `id` drawn from the state.
-/

namespace ReactUrlQuery

/-- Query values.  The query-string parser produces strings; this suffices for
every claim under study. -/
abbrev Val := String

/-- A JavaScript object with string keys, as an association list.  Reads take
the first binding; `setKey` keeps at most one binding per key. -/
abbrev Obj (α : Type) := List (String × α)

/-- A URL query object. -/
abbrev Query := Obj Val

/-- Property read `o[k]`: first binding wins. -/
def getKey {α : Type} : Obj α → String → Option α
  | [], _ => none
  | p :: rest, k => if p.1 = k then some p.2 else getKey rest k

/-- Key-membership test. -/
def hasKey {α : Type} (o : Obj α) (k : String) : Bool :=
  (getKey o k).isSome

/-- Property write `o[k] = v`: overwrite the binding in place when the key is
present, append otherwise (JavaScript keeps the original insertion position on
overwrite). -/
def setKey {α : Type} (o : Obj α) (k : String) (v : α) : Obj α :=
  if hasKey o k then
    o.map (fun p => if p.1 = k then (k, v) else p)
  else
    o ++ [(k, v)]

/-- `Object.assign(target, source)`: each binding of `source`, in order, is
written into `target`. -/
def objAssign {α : Type} (target source : Obj α) : Obj α :=
  source.foldl (fun acc p => setKey acc p.1 p.2) target

/-- A location-like object: `query` (an already-parsed object, as provided by
react-router) and `search` (the raw search string).  Either may be absent. -/
structure Location where
  query : Option Query
  search : Option String
deriving DecidableEq, Repr

/-- The global `urlQueryConfig` singleton (module `urlQueryConfig`, outside
`src/`): only the slots `addUrlProps` reads.  `historyLocation` stands for
`urlQueryConfig.history.location`. -/
structure GlobalConfig where
  historyLocation : Option Location
  addRouterParams : Bool
  addUrlChangeHandlers : Bool
  changeHandlerName : Option (String → String)

/-- Per-prop descriptor in `urlPropsQueryConfig`:
`{ updateType, queryParam, type }`.  `type` is kept as an opaque tag, consumed
only by the abstract `encode`. -/
structure FieldCfg where
  updateType : Option String
  queryParam : Option String
  type : String
deriving DecidableEq, Repr

/-- A `urlPropsQueryConfig` object: prop name to descriptor. -/
abbrev QueryCfg := Obj FieldCfg

/-- The props of the wrapped component that `getUrlObject` reads:
`props.location` and the react-router `props.params`. -/
structure Props where
  location : Option Location
  params : Option Query
deriving DecidableEq, Repr

/-- Line 78: `addRouterParams || (addRouterParams !== false &&
urlQueryConfig.addRouterParams)` on an `undefined | true | false` option. -/
def addRouterParamsEnabled (opt : Option Bool) (globalFlag : Bool) : Bool :=
  (opt == some true) || (!(opt == some false) && globalFlag)

/-- Line 105: `addUrlChangeHandlers || (addUrlChangeHandlers == null &&
urlQueryConfig.addUrlChangeHandlers)`. -/
def addUrlChangeHandlersEnabled (opt : Option Bool) (globalFlag : Bool) : Bool :=
  (opt == some true) || (opt.isNone && globalFlag)

/-- Lines 13–15: `` `onChange${propName[0].toUpperCase()}${propName.substring(1)}` ``.
Rendered at the character-list level (first character upper-cased, rest kept)
so that it evaluates; the JavaScript original throws on the empty prop name
(`propName[0]` is `undefined`), where this total model yields `"onChange"`. -/
def defaultChangeHandlerName (propName : String) : String :=
  "onChange" ++ String.mk ((propName.data.take 1).map Char.toUpper) ++
    String.mk (propName.data.drop 1)

/-- Lines 114–116: `if (!changeHandlerName) changeHandlerName =
urlQueryConfig.changeHandlerName || defaultChangeHandlerName`.  The naming
function actually used, as a function of the option and the global slot. -/
def resolveChangeHandlerName (optName globalName : Option (String → String)) :
    String → String :=
  match optName with
  | some f => f
  | none => globalName.getD defaultChangeHandlerName

/-- Lines 42–45: `if (urlPropsQueryConfig) decodeQuery =
urlQueryDecoder(urlPropsQueryConfig)`.  `urlQueryDecoder` lives outside `src/`
and stays abstract. -/
def decodeQueryOf (urlQueryDecoder : QueryCfg → Query → Query)
    (urlPropsQueryConfig : Option QueryCfg) : Option (Query → Query) :=
  urlPropsQueryConfig.map urlQueryDecoder

/-- Lines 50–83, `getUrlObject(props)`: resolve a location (props location if
it has a truthy `query`, else the history location if truthy, else
`window.location`), take `location.query || parseQueryString(location.search)`,
decode it when a decoder exists, then `Object.assign` the router params in when
requested. -/
def getUrlObject (parseQS : Option String → Query)
    (decodeQuery : Option (Query → Query)) (addRouterParams : Option Bool)
    (global : GlobalConfig) (windowLocation : Location) (props : Props) :
    Query :=
  let location :=
    if (props.location.bind Location.query).isSome then
      props.location.getD windowLocation
    else if global.historyLocation.isSome then
      global.historyLocation.getD windowLocation
    else
      windowLocation
  let currentQuery :=
    match location.query with
    | some q => q
    | none => parseQS location.search
  let result :=
    match decodeQuery with
    | some d => d currentQuery
    | none => currentQuery
  if addRouterParamsEnabled addRouterParams global.addRouterParams then
    match props.params with
    | some ps => objAssign result ps
    | none => result
  else
    result

/-- The data captured by one generated change handler: the destructured
`{ updateType, queryParam = propName, type }` of its field's descriptor. -/
structure Handler where
  updateType : Option String
  queryParam : String
  type : String
deriving DecidableEq, Repr

/-- A generated handler set.  `id` models the referential identity of the
freshly allocated functions/object; `handlers` maps generated handler name to
the handler's captured data. -/
structure HandlerSet where
  id : Nat
  handlers : Obj Handler
deriving DecidableEq, Repr

/-- The single call a generated handler performs:
`updateUrlQuerySingle(updateType, queryParam, encodedValue, this.props.location)`. -/
structure UpdateCall where
  updateType : Option String
  queryParam : String
  encodedValue : Val
  location : Option Location
deriving DecidableEq, Repr

/-- Lines 124–127, the body of `generatedUrlChangeHandler(value)`: encode the
value by the field's `type` and issue the single-field URL update.  `encode`
(serialize module, outside `src/`) stays abstract. -/
def generatedUrlChangeHandler (encode : String → Val → Val) (h : Handler)
    (thisPropsLocation : Option Location) (value : Val) : UpdateCall :=
  { updateType := h.updateType
    queryParam := h.queryParam
    encodedValue := encode h.type value
    location := thisPropsLocation }

/-- Lines 118–130: `Object.keys(urlPropsQueryConfig).reduce(...)` — one
`handlersAccum[handlerName] = ...` write per configured prop, in order. -/
def genHandlers (changeHandlerName : String → String) (cfg : QueryCfg) :
    Obj Handler :=
  cfg.foldl
    (fun handlersAccum p =>
      setKey handlersAccum (changeHandlerName p.1)
        { updateType := p.2.updateType
          queryParam := p.2.queryParam.getD p.1
          type := p.2.type })
    []

/-- The mutable state of one `addPropsWrapper` closure: the `cachedHandlers`
cell (shared by every instance of the returned class) plus an allocator for
fresh handler-set identities. -/
structure WrapperState where
  cachedHandlers : Option HandlerSet
  nextId : Nat
deriving DecidableEq, Repr

/-- Lines 98–145, `getUrlChangeHandlerProps(propsWithUrl)`: when a config is
present and handler generation is enabled, return the cached set or generate
(and cache) a fresh one; then pass the result through
`mapUrlChangeHandlersToProps` when that is provided.  Returns the updated
closure state together with the returned handlers value (which is `undefined`,
i.e. `none`, when nothing produced one). -/
def getUrlChangeHandlerProps {π : Type}
    (urlPropsQueryConfig : Option QueryCfg) (addUrlChangeHandlers : Option Bool)
    (changeHandlerNameOpt : Option (String → String))
    (mapUrlChangeHandlersToProps :
      Option (π → Option HandlerSet → Option HandlerSet))
    (global : GlobalConfig) (st : WrapperState) (propsWithUrl : π) :
    WrapperState × Option HandlerSet :=
  let generated : WrapperState × Option HandlerSet :=
    match urlPropsQueryConfig with
    | some cfg =>
      if addUrlChangeHandlersEnabled addUrlChangeHandlers
          global.addUrlChangeHandlers then
        match st.cachedHandlers with
        | some cached => (st, some cached)
        | none =>
          let chName :=
            resolveChangeHandlerName changeHandlerNameOpt
              global.changeHandlerName
          let hs : HandlerSet := ⟨st.nextId, genHandlers chName cfg⟩
          ({ cachedHandlers := some hs, nextId := st.nextId + 1 }, some hs)
      else
        (st, none)
    | none => (st, none)
  match mapUrlChangeHandlersToProps with
  | some f => (generated.1, f propsWithUrl generated.2)
  | none => generated

/-- Modelled from the spec: `updateUrlQuerySingle` (module `updateUrlQuery`,
not under `src/`) writes a single query key/value into the URL; the update
strategy (`updateType`, e.g. replace vs. push) selects how the history entry is
produced and does not change which query fields are written.  Modelled as the
single-key write on the query object. -/
def updateUrlQuerySingle (updateType : Option String) (queryParam : String)
    (encodedValue : Val) (query : Query) : Query :=
  setKey query queryParam encodedValue

/-- Formalised from the spec's (amended) resolution rule: the location prop is
the source exactly when it carries a truthy `query`; otherwise the history
location when present; otherwise the window location. -/
def specResolvedQuerySource (historyLoc propsLoc : Option Location)
    (windowLoc : Location) : Location :=
  match propsLoc with
  | some loc => if loc.query.isSome then loc else historyLoc.getD windowLoc
  | none => historyLoc.getD windowLoc

/-- Formalised from the spec: "the raw parsed query" of the resolved source —
its `query` object when present, else the parse of its `search` string. -/
def specRawQuery (parseQS : Option String → Query)
    (historyLoc propsLoc : Option Location) (windowLoc : Location) : Query :=
  let loc := specResolvedQuerySource historyLoc propsLoc windowLoc
  match loc.query with
  | some q => q
  | none => parseQS loc.search

/-- The URL-derived part of the url object: the raw query of the resolved
source, decoded when a decoder exists. -/
def specUrlDerived (parseQS : Option String → Query)
    (decodeQuery : Option (Query → Query)) (historyLoc propsLoc : Option Location)
    (windowLoc : Location) : Query :=
  match decodeQuery with
  | some d => d (specRawQuery parseQS historyLoc propsLoc windowLoc)
  | none => specRawQuery parseQS historyLoc propsLoc windowLoc

/-! ### Association-list lemmas -/

theorem getKey_eq_none_of_not_mem {α : Type} {o : Obj α} {k : String}
    (h : k ∉ o.map Prod.fst) : getKey o k = none := by
  induction o with
  | nil => rfl
  | cons p rest ih =>
    simp only [List.map_cons, List.mem_cons, not_or] at h
    simp only [getKey]
    rw [if_neg (Ne.symm h.1)]
    exact ih h.2

theorem getKey_map_overwrite_self {α : Type} (o : Obj α) (k : String) (v : α) :
    getKey (o.map (fun p => if p.1 = k then (k, v) else p)) k =
      (getKey o k).map (fun _ => v) := by
  induction o with
  | nil => rfl
  | cons p rest ih =>
    by_cases hk : p.1 = k
    · simp [getKey, hk]
    · simp [getKey, hk, ih]

theorem getKey_map_overwrite_ne {α : Type} (o : Obj α) (k k' : String) (v : α)
    (hne : k' ≠ k) :
    getKey (o.map (fun p => if p.1 = k then (k, v) else p)) k' = getKey o k' :=
  by
  induction o with
  | nil => rfl
  | cons p rest ih =>
    by_cases hk : p.1 = k
    · simp [getKey, hk, Ne.symm hne, ih]
    · simp only [List.map_cons, if_neg hk, getKey]
      by_cases hk' : p.1 = k'
      · simp [hk']
      · simp [hk', ih]

theorem getKey_append_single_self {α : Type} (o : Obj α) (k : String) (v : α)
    (h : getKey o k = none) : getKey (o ++ [(k, v)]) k = some v := by
  induction o with
  | nil => simp [getKey]
  | cons p rest ih =>
    simp only [getKey] at h ⊢
    by_cases hk : p.1 = k
    · simp [hk] at h
    · simpa [hk] using ih (by simpa [hk] using h)

theorem getKey_append_single_ne {α : Type} (o : Obj α) (k k' : String) (v : α)
    (hne : k' ≠ k) : getKey (o ++ [(k, v)]) k' = getKey o k' := by
  induction o with
  | nil => simp [getKey, Ne.symm hne]
  | cons p rest ih =>
    simp only [getKey, List.cons_append]
    by_cases hk : p.1 = k'
    · simp [hk]
    · simp [hk, ih]

theorem getKey_setKey_self {α : Type} (o : Obj α) (k : String) (v : α) :
    getKey (setKey o k v) k = some v := by
  unfold setKey hasKey
  by_cases h : (getKey o k).isSome
  · simp only [h, if_true]
    rw [getKey_map_overwrite_self]
    rcases hg : getKey o k with _ | w
    · rw [hg] at h; simp at h
    · simp
  · simp only [h, if_false]
    exact getKey_append_single_self o k v (by
      rcases hg : getKey o k with _ | w
      · rfl
      · rw [hg] at h; simp at h)

theorem getKey_setKey_ne {α : Type} (o : Obj α) (k k' : String) (v : α)
    (hne : k' ≠ k) : getKey (setKey o k v) k' = getKey o k' := by
  unfold setKey
  by_cases h : hasKey o k
  · simp only [h, if_true]
    exact getKey_map_overwrite_ne o k k' v hne
  · simp only [h, if_false]
    exact getKey_append_single_ne o k k' v hne

theorem getKey_objAssign {α : Type} (target source : Obj α) (k : String)
    (hnd : (source.map Prod.fst).Nodup) :
    getKey (objAssign target source) k =
      (getKey source k <|> getKey target k) := by
  induction source generalizing target with
  | nil => simp [objAssign, getKey]
  | cons p rest ih =>
    simp only [List.map_cons, List.nodup_cons] at hnd
    have step : objAssign target (p :: rest) =
        objAssign (setKey target p.1 p.2) rest := rfl
    rw [step, ih _ hnd.2]
    by_cases hk : p.1 = k
    · subst hk
      rw [getKey_eq_none_of_not_mem hnd.1]
      simp [getKey, getKey_setKey_self]
    · simp [getKey, hk, getKey_setKey_ne target p.1 k p.2 (Ne.symm hk)]

theorem setKey_of_not_hasKey {α : Type} (o : Obj α) (k : String) (v : α)
    (h : hasKey o k = false) : setKey o k v = o ++ [(k, v)] := by
  simp [setKey, h]

/-! ### Characterisation of `getUrlObject` -/

theorem getUrlObject_eq_spec (parseQS : Option String → Query)
    (decodeQuery : Option (Query → Query)) (arp : Option Bool)
    (global : GlobalConfig) (w : Location) (props : Props) :
    getUrlObject parseQS decodeQuery arp global w props =
      (let decoded :=
        specUrlDerived parseQS decodeQuery global.historyLocation
          props.location w
       if addRouterParamsEnabled arp global.addRouterParams then
         match props.params with
         | some ps => objAssign decoded ps
         | none => decoded
       else decoded) := by
  obtain ⟨pl, pp⟩ := props
  cases pl with
  | none =>
    cases hh : global.historyLocation <;>
      simp [getUrlObject, specUrlDerived, specRawQuery,
        specResolvedQuerySource, hh]
  | some loc =>
    cases hq : loc.query with
    | none =>
      cases hh : global.historyLocation <;>
        simp [getUrlObject, specUrlDerived, specRawQuery,
          specResolvedQuerySource, hh, hq]
    | some q =>
      cases hh : global.historyLocation <;>
        simp [getUrlObject, specUrlDerived, specRawQuery,
          specResolvedQuerySource, hh, hq]

/-! ### Handler-generation lemmas -/

theorem genHandlers_eq_objAssign (chName : String → String) (cfg : QueryCfg) :
    genHandlers chName cfg =
      objAssign []
        (cfg.map fun p =>
          (chName p.1,
            ({ updateType := p.2.updateType
               queryParam := p.2.queryParam.getD p.1
               type := p.2.type } : Handler))) := by
  unfold genHandlers objAssign
  rw [List.foldl_map]

theorem getKey_map_handler (chName : String → String) (cfg : QueryCfg)
    (hnd : (cfg.map fun p => chName p.1).Nodup) (p0 : String × FieldCfg)
    (hmem : p0 ∈ cfg) :
    getKey
        (cfg.map fun p =>
          (chName p.1,
            ({ updateType := p.2.updateType
               queryParam := p.2.queryParam.getD p.1
               type := p.2.type } : Handler)))
        (chName p0.1) =
      some
        { updateType := p0.2.updateType
          queryParam := p0.2.queryParam.getD p0.1
          type := p0.2.type } := by
  induction cfg with
  | nil => cases hmem
  | cons q rest ih =>
    simp only [List.map_cons, List.nodup_cons] at hnd
    rcases List.mem_cons.mp hmem with hq | hrest
    · subst hq
      simp [getKey]
    · have hne : chName q.1 ≠ chName p0.1 := by
        intro he
        exact hnd.1 (he ▸ List.mem_map_of_mem (fun p => chName p.1) hrest)
      simp only [List.map_cons, getKey]
      rw [if_neg hne]
      exact ih hnd.2 hrest

theorem genHandlers_names (chName : String → String) (cfg : QueryCfg)
    (hnd : (cfg.map fun p => chName p.1).Nodup) :
    (genHandlers chName cfg).map Prod.fst = cfg.map fun p => chName p.1 := by
  rw [genHandlers_eq_objAssign]
  suffices h : ∀ (acc : Obj Handler) (src : Obj Handler),
      (∀ k ∈ src.map Prod.fst, ¬ k ∈ acc.map Prod.fst) →
      (src.map Prod.fst).Nodup →
      (objAssign acc src).map Prod.fst =
        acc.map Prod.fst ++ src.map Prod.fst by
    have := h []
      (cfg.map fun p =>
        (chName p.1,
          ({ updateType := p.2.updateType
             queryParam := p.2.queryParam.getD p.1
             type := p.2.type } : Handler)))
      (by simp) (by simpa [List.map_map, Function.comp] using hnd)
    simpa [List.map_map, Function.comp] using this
  intro acc src
  induction src generalizing acc with
  | nil => intro _ _; simp [objAssign]
  | cons q rest ih =>
    intro hdisj hnd2
    simp only [List.map_cons, List.nodup_cons] at hnd2
    have hq : ¬ q.1 ∈ acc.map Prod.fst := by
      exact hdisj q.1 (by simp)
    have hset : setKey acc q.1 q.2 = acc ++ [(q.1, q.2)] := by
      apply setKey_of_not_hasKey
      simp [hasKey, getKey_eq_none_of_not_mem hq]
    have step : objAssign acc (q :: rest) =
        objAssign (setKey acc q.1 q.2) rest := rfl
    rw [step, hset, ih (acc ++ [(q.1, q.2)])]
    · simp
    · intro k hk
      simp only [List.map_append, List.mem_append, List.map_cons]
      rintro (hka | hkq)
      · exact hdisj k (by simp [hk]) hka
      · simp at hkq
        exact hnd2.1 (hkq ▸ hk)
    · exact hnd2.2

theorem getKey_genHandlers (chName : String → String) (cfg : QueryCfg)
    (hnd : (cfg.map fun p => chName p.1).Nodup) (p0 : String × FieldCfg)
    (hmem : p0 ∈ cfg) :
    getKey (genHandlers chName cfg) (chName p0.1) =
      some
        { updateType := p0.2.updateType
          queryParam := p0.2.queryParam.getD p0.1
          type := p0.2.type } := by
  rw [genHandlers_eq_objAssign,
    getKey_objAssign _ _ _
      (by simpa [List.map_map, Function.comp] using hnd),
    getKey_map_handler chName cfg hnd p0 hmem]
  rfl

/-! ### Cache behaviour of `getUrlChangeHandlerProps` -/

theorem getUrlChangeHandlerProps_cached {π : Type} (cfg : QueryCfg)
    (auch : Option Bool) (chn : Option (String → String))
    (global : GlobalConfig) (st : WrapperState) (c : HandlerSet) (p : π)
    (hen : addUrlChangeHandlersEnabled auch global.addUrlChangeHandlers = true)
    (hc : st.cachedHandlers = some c) :
    getUrlChangeHandlerProps (some cfg) auch chn none global st p =
      (st, some c) := by
  simp [getUrlChangeHandlerProps, hen, hc]

theorem getUrlChangeHandlerProps_fresh {π : Type} (cfg : QueryCfg)
    (auch : Option Bool) (chn : Option (String → String))
    (global : GlobalConfig) (st : WrapperState) (p : π)
    (hen : addUrlChangeHandlersEnabled auch global.addUrlChangeHandlers = true)
    (hc : st.cachedHandlers = none) :
    getUrlChangeHandlerProps (some cfg) auch chn none global st p =
      (⟨some
          ⟨st.nextId,
            genHandlers (resolveChangeHandlerName chn global.changeHandlerName)
              cfg⟩,
        st.nextId + 1⟩,
       some
        ⟨st.nextId,
          genHandlers (resolveChangeHandlerName chn global.changeHandlerName)
            cfg⟩) := by
  simp [getUrlChangeHandlerProps, hen, hc]

theorem getUrlChangeHandlerProps_step {π : Type} (cfg : QueryCfg)
    (auch : Option Bool) (chn : Option (String → String))
    (global : GlobalConfig) (st : WrapperState) (p : π)
    (hen : addUrlChangeHandlersEnabled auch global.addUrlChangeHandlers = true) :
    getUrlChangeHandlerProps (some cfg) auch chn none global
        (getUrlChangeHandlerProps (some cfg) auch chn none global st p).1 p =
      getUrlChangeHandlerProps (some cfg) auch chn none global st p := by
  cases hc : st.cachedHandlers with
  | some c =>
    rw [getUrlChangeHandlerProps_cached cfg auch chn global st c p hen hc,
      getUrlChangeHandlerProps_cached cfg auch chn global st c p hen hc]
  | none =>
    rw [getUrlChangeHandlerProps_fresh cfg auch chn global st p hen hc]
    exact getUrlChangeHandlerProps_cached cfg auch chn global _ _ p hen rfl

/-- The sequence of closure states across repeated renders: `renderStates n` is
the state before the `(n+1)`-th call to `getUrlChangeHandlerProps`. -/
def renderStates {π : Type} (urlPropsQueryConfig : Option QueryCfg)
    (auch : Option Bool) (chn : Option (String → String))
    (mapFn : Option (π → Option HandlerSet → Option HandlerSet))
    (global : GlobalConfig) (st0 : WrapperState) (p : π) : Nat → WrapperState
  | 0 => st0
  | n + 1 =>
    (getUrlChangeHandlerProps urlPropsQueryConfig auch chn mapFn global
        (renderStates urlPropsQueryConfig auch chn mapFn global st0 p n) p).1

theorem getUrlChangeHandlerProps_renderStates {π : Type} (cfg : QueryCfg)
    (auch : Option Bool) (chn : Option (String → String))
    (global : GlobalConfig) (st0 : WrapperState) (p : π)
    (hen : addUrlChangeHandlersEnabled auch global.addUrlChangeHandlers = true) :
    ∀ n,
      getUrlChangeHandlerProps (some cfg) auch chn none global
          (renderStates (some cfg) auch chn none global st0 p n) p =
        getUrlChangeHandlerProps (some cfg) auch chn none global st0 p := by
  intro n
  induction n with
  | zero => rfl
  | succ m ih =>
    show getUrlChangeHandlerProps (some cfg) auch chn none global
        (getUrlChangeHandlerProps (some cfg) auch chn none global
          (renderStates (some cfg) auch chn none global st0 p m) p).1 p = _
    rw [ih]
    exact getUrlChangeHandlerProps_step cfg auch chn global st0 p hen

/-! ### Claims about `getUrlObject` -/

/-- C5 counterexample: the location prop is present (with a `search` string the
claim would have parsed) but has no truthy `query`, and the history location is
present; the code takes the history location's query, not the location prop's,
so a lower-priority source is used although a higher-priority one is not
absent. -/
theorem location_prop_without_query_skipped_cex :
    getUrlObject (fun s => if s = some "?a=1" then [("a", "1")] else [])
        none none ⟨some ⟨some [("b", "2")], none⟩, false, false, none⟩
        ⟨some [("w", "9")], none⟩ ⟨some ⟨none, some "?a=1"⟩, none⟩ =
      [("b", "2")] ∧
    getUrlObject (fun s => if s = some "?a=1" then [("a", "1")] else [])
        none none ⟨some ⟨some [("b", "2")], none⟩, false, false, none⟩
        ⟨some [("w", "9")], none⟩ ⟨some ⟨none, some "?a=1"⟩, none⟩ ≠
      [("a", "1")] := by
  constructor
  · rfl
  · decide

/-- C5 (corrected): on every render the query source is resolved as: the
location prop when it carries a truthy `query`; otherwise the history location
when present; otherwise the window location — and the url object is the
decoded raw query of that source, with router params assigned in when
enabled. -/
theorem query_source_priority (parseQS : Option String → Query)
    (decodeQuery : Option (Query → Query)) (arp : Option Bool)
    (global : GlobalConfig) (w : Location) (props : Props) :
    getUrlObject parseQS decodeQuery arp global w props =
      (let decoded :=
        specUrlDerived parseQS decodeQuery global.historyLocation
          props.location w
       if addRouterParamsEnabled arp global.addRouterParams then
         match props.params with
         | some ps => objAssign decoded ps
         | none => decoded
       else decoded) :=
  getUrlObject_eq_spec parseQS decodeQuery arp global w props

/-- C10 (confirmed): a location prop whose `query` is absent is ignored
entirely — the url object is the same as if no location prop had been passed,
so the prop's `search` string is never parsed. -/
theorem falsy_query_location_prop_ignored (parseQS : Option String → Query)
    (decodeQuery : Option (Query → Query)) (arp : Option Bool)
    (global : GlobalConfig) (w : Location) (loc : Location)
    (params : Option Query) (hq : loc.query = none) :
    getUrlObject parseQS decodeQuery arp global w ⟨some loc, params⟩ =
      getUrlObject parseQS decodeQuery arp global w ⟨none, params⟩ := by
  simp [getUrlObject, hq]

/-- C10 witness: a location prop carrying only a `search` string yields the
same url object as passing no location prop at all. -/
theorem falsy_query_location_prop_ignored_witness :
    getUrlObject (fun _ => []) none none
        ⟨some ⟨some [("b", "2")], none⟩, false, false, none⟩ ⟨none, none⟩
        ⟨some ⟨none, some "?a=1"⟩, none⟩ =
      getUrlObject (fun _ => []) none none
        ⟨some ⟨some [("b", "2")], none⟩, false, false, none⟩ ⟨none, none⟩
        ⟨none, none⟩ :=
  falsy_query_location_prop_ignored (fun _ => []) none none
    ⟨some ⟨some [("b", "2")], none⟩, false, false, none⟩ ⟨none, none⟩
    ⟨none, some "?a=1"⟩ none rfl

/-- C1 counterexample: with router-param merging enabled, a router param whose
key also occurs in the URL-derived query overwrites the URL-derived value,
contrary to the claim that URL-derived values are not overwritten. -/
theorem routerParams_overwrite_cex :
    getKey
        (getUrlObject (fun _ => []) none (some true)
          ⟨none, false, false, none⟩ ⟨none, none⟩
          ⟨some ⟨some [("a", "url")], none⟩, some [("a", "router")]⟩)
        "a" = some "router" ∧
    getKey
        (getUrlObject (fun _ => []) none (some true)
          ⟨none, false, false, none⟩ ⟨none, none⟩
          ⟨some ⟨some [("a", "url")], none⟩, some [("a", "router")]⟩)
        "a" ≠ some "url" := by
  constructor
  · rfl
  · decide

/-- C1 (corrected): when router-param merging is enabled, the router params
appear in the url object merged with `Object.assign` semantics — a router
param takes precedence over the URL-derived value of the same key, and
URL-derived values survive only at keys the router params do not bind. -/
theorem routerParams_merge_overwrites_url_values
    (parseQS : Option String → Query) (decodeQuery : Option (Query → Query))
    (arp : Option Bool) (global : GlobalConfig) (w : Location)
    (pl : Option Location) (ps : Query) (k : String)
    (hen : addRouterParamsEnabled arp global.addRouterParams = true)
    (hnd : (ps.map Prod.fst).Nodup) :
    getKey (getUrlObject parseQS decodeQuery arp global w ⟨pl, some ps⟩) k =
      (getKey ps k <|>
        getKey
          (specUrlDerived parseQS decodeQuery global.historyLocation pl w)
          k) := by
  rw [getUrlObject_eq_spec]
  simp only [hen, if_true]
  exact getKey_objAssign _ ps k hnd

/-- C1 witness: router param `a` overwrites the URL-derived `a`, while the
URL-derived `b` survives. -/
theorem routerParams_merge_overwrites_url_values_witness :
    getKey
        (getUrlObject (fun _ => []) none (some true)
          ⟨none, false, false, none⟩ ⟨none, none⟩
          ⟨some ⟨some [("a", "url"), ("b", "keep")], none⟩,
            some [("a", "router")]⟩)
        "b" =
      (getKey [("a", "router")] "b" <|>
        getKey
          (specUrlDerived (fun _ => ([] : Query)) none none
            (some ⟨some [("a", "url"), ("b", "keep")], none⟩) ⟨none, none⟩)
          "b") :=
  routerParams_merge_overwrites_url_values (fun _ => []) none (some true)
    ⟨none, false, false, none⟩ ⟨none, none⟩
    (some ⟨some [("a", "url"), ("b", "keep")], none⟩) [("a", "router")] "b"
    (by decide) (by decide)

/-- C6 counterexample: with no `urlPropsQueryConfig` but router-param merging
enabled, the url object differs from the raw parsed query — the overlapping
router param replaced the raw value — so raw keys/values do not always pass
through unchanged. -/
theorem raw_query_passthrough_cex :
    getUrlObject (fun _ => []) (decodeQueryOf (fun _ q => q) none) (some true)
        ⟨none, false, false, none⟩ ⟨none, none⟩
        ⟨some ⟨some [("a", "q")], none⟩, some [("a", "p")]⟩ =
      [("a", "p")] ∧
    getUrlObject (fun _ => []) (decodeQueryOf (fun _ q => q) none) (some true)
        ⟨none, false, false, none⟩ ⟨none, none⟩
        ⟨some ⟨some [("a", "q")], none⟩, some [("a", "p")]⟩ ≠
      [("a", "q")] := by
  constructor
  · rfl
  · decide

/-- C6 (corrected): when no `urlPropsQueryConfig` is supplied (so no decoder
exists) and router-param merging is disabled or no router params are present,
the url object is exactly the raw parsed query of the current location, with
no decoding and no renaming. -/
theorem raw_query_passthrough_no_config (parseQS : Option String → Query)
    (urlQueryDecoder : QueryCfg → Query → Query) (arp : Option Bool)
    (global : GlobalConfig) (w : Location) (props : Props)
    (hmerge :
      addRouterParamsEnabled arp global.addRouterParams = false ∨
        props.params = none) :
    getUrlObject parseQS (decodeQueryOf urlQueryDecoder none) arp global w
        props =
      specRawQuery parseQS global.historyLocation props.location w := by
  rw [getUrlObject_eq_spec]
  rcases hmerge with hm | hp
  · simp [hm, specUrlDerived, decodeQueryOf]
  · cases h : addRouterParamsEnabled arp global.addRouterParams <;>
      simp [h, hp, specUrlDerived, decodeQueryOf]

/-- C6 witness: with no config, no router params and a plain parsed query, the
url object is that raw query unchanged. -/
theorem raw_query_passthrough_no_config_witness :
    getUrlObject (fun _ => [("x", "1")])
        (decodeQueryOf (fun _ q => q) none) none
        ⟨none, false, false, none⟩ ⟨none, some "?x=1"⟩ ⟨none, none⟩ =
      specRawQuery (fun _ => [("x", "1")]) none none ⟨none, some "?x=1"⟩ :=
  raw_query_passthrough_no_config (fun _ => [("x", "1")]) (fun _ q => q) none
    ⟨none, false, false, none⟩ ⟨none, some "?x=1"⟩ ⟨none, none⟩ (Or.inr rfl)

/-! ### Claims about handler generation and caching -/

/-- C2 counterexample: two distinct instances of the same wrapped class (here:
two different `propsWithUrl` values, `0` and `1`, threading the single
`cachedHandlers` cell of their shared `addPropsWrapper` closure) receive the
same cached handler set — the set generated during the first instance's call
(identity `0`) is returned unchanged to the second instance, refuting the
claim that instances do not share one cached handler set. -/
theorem cachedHandlers_shared_across_instances_cex :
    (getUrlChangeHandlerProps (some [("foo", ⟨none, none, "string"⟩)]) none
        (some fun p => p) none ⟨none, false, true, none⟩
        (getUrlChangeHandlerProps (some [("foo", ⟨none, none, "string"⟩)])
            none (some fun p => p) none ⟨none, false, true, none⟩ ⟨none, 0⟩
            (0 : Nat)).1
        (1 : Nat)).2 =
      some ⟨0, [("foo", ⟨none, "foo", "string"⟩)]⟩ ∧
    (getUrlChangeHandlerProps (some [("foo", ⟨none, none, "string"⟩)]) none
        (some fun p => p) none ⟨none, false, true, none⟩ ⟨none, 0⟩
        (0 : Nat)).2 =
      some ⟨0, [("foo", ⟨none, "foo", "string"⟩)]⟩ := by
  constructor <;> rfl

/-- C2 (corrected): the cached handler set lives in the `addPropsWrapper`
closure, one cell per wrapped class, shared by every instance: whatever
instance calls `getUrlChangeHandlerProps`, a populated cache is returned as-is
and never invalidated, while a wrapper whose cache is still empty generates
the handlers from its own configuration (a different configuration only yields
new handlers because a new `addUrlProps` application creates a fresh closure
with an empty cache). -/
theorem cachedHandlers_per_wrapper {π : Type} (cfg : QueryCfg)
    (auch : Option Bool) (chn : Option (String → String))
    (global : GlobalConfig) (st : WrapperState) (c : HandlerSet) (p1 p2 : π)
    (hen :
      addUrlChangeHandlersEnabled auch global.addUrlChangeHandlers = true) :
    (st.cachedHandlers = some c →
      getUrlChangeHandlerProps (some cfg) auch chn none global st p1 =
          (st, some c) ∧
        getUrlChangeHandlerProps (some cfg) auch chn none global st p2 =
          (st, some c)) ∧
    (st.cachedHandlers = none →
      (getUrlChangeHandlerProps (some cfg) auch chn none global st p1).2 =
        some
          ⟨st.nextId,
            genHandlers (resolveChangeHandlerName chn global.changeHandlerName)
              cfg⟩) := by
  constructor
  · intro hc
    exact ⟨getUrlChangeHandlerProps_cached cfg auch chn global st c p1 hen hc,
      getUrlChangeHandlerProps_cached cfg auch chn global st c p2 hen hc⟩
  · intro hc
    rw [getUrlChangeHandlerProps_fresh cfg auch chn global st p1 hen hc]

/-- C2 witness: with a populated cache, a call returns the cached set and
leaves the state untouched. -/
theorem cachedHandlers_per_wrapper_witness :
    getUrlChangeHandlerProps (some [("foo", ⟨none, none, "t"⟩)]) none
        (some fun p => p) none ⟨none, false, true, none⟩
        ⟨some ⟨7, [("h", ⟨none, "q", "t"⟩)]⟩, 8⟩ (0 : Nat) =
      (⟨some ⟨7, [("h", ⟨none, "q", "t"⟩)]⟩, 8⟩,
        some ⟨7, [("h", ⟨none, "q", "t"⟩)]⟩) :=
  ((cachedHandlers_per_wrapper [("foo", ⟨none, none, "t"⟩)] none
        (some fun p => p) ⟨none, false, true, none⟩
        ⟨some ⟨7, [("h", ⟨none, "q", "t"⟩)]⟩, 8⟩
        ⟨7, [("h", ⟨none, "q", "t"⟩)]⟩ (0 : Nat) (1 : Nat)
        (by decide)).1 rfl).1

/-- C3 (confirmed): with a `urlPropsQueryConfig` present, handler generation
enabled, and no `mapUrlChangeHandlersToProps`, every later render's call to
`getUrlChangeHandlerProps` returns exactly the value of the first call — the
generated handler set (including its identity) is referentially stable across
renders. -/
theorem handlers_referentially_stable_across_renders {π : Type}
    (cfg : QueryCfg) (auch : Option Bool) (chn : Option (String → String))
    (global : GlobalConfig) (st0 : WrapperState) (p : π) (n : Nat)
    (hen :
      addUrlChangeHandlersEnabled auch global.addUrlChangeHandlers = true) :
    (getUrlChangeHandlerProps (some cfg) auch chn none global
        (renderStates (some cfg) auch chn none global st0 p n) p).2 =
      (getUrlChangeHandlerProps (some cfg) auch chn none global st0 p).2 := by
  rw [getUrlChangeHandlerProps_renderStates cfg auch chn global st0 p hen n]

/-- C3 witness: the third render's handlers equal the first render's. -/
theorem handlers_referentially_stable_across_renders_witness :
    (getUrlChangeHandlerProps (some [("foo", ⟨none, none, "t"⟩)]) none
        (some fun p => p) none ⟨none, false, true, none⟩
        (renderStates (some [("foo", ⟨none, none, "t"⟩)]) none
          (some fun p => p) none ⟨none, false, true, none⟩ ⟨none, 0⟩ (0 : Nat)
          2)
        (0 : Nat)).2 =
      (getUrlChangeHandlerProps (some [("foo", ⟨none, none, "t"⟩)]) none
        (some fun p => p) none ⟨none, false, true, none⟩ ⟨none, 0⟩
        (0 : Nat)).2 :=
  handlers_referentially_stable_across_renders [("foo", ⟨none, none, "t"⟩)]
    none (some fun p => p) ⟨none, false, true, none⟩ ⟨none, 0⟩ (0 : Nat) 2
    (by decide)

/-- C4 counterexample: the configured fields `foo` and `Foo` are distinct, but
the default naming maps both to `onChangeFoo`; the reduce overwrites the first
handler with the second, so a two-field config yields a single handler (and no
handler at all issues `foo`'s update), refuting "exactly one change-handler
prop per configured field". -/
theorem handler_per_field_collision_cex :
    genHandlers (resolveChangeHandlerName none none)
        [("foo", ⟨some "replaceIn", none, "string"⟩),
          ("Foo", ⟨some "pushIn", none, "number"⟩)] =
      [("onChangeFoo", ⟨some "pushIn", "Foo", "number"⟩)] ∧
    (genHandlers (resolveChangeHandlerName none none)
          [("foo", ⟨some "replaceIn", none, "string"⟩),
            ("Foo", ⟨some "pushIn", none, "number"⟩)]).length ≠
      ([("foo", ⟨some "replaceIn", none, "string"⟩),
          ("Foo", ⟨some "pushIn", none, "number"⟩)] : QueryCfg).length := by
  constructor
  · rfl
  · decide

/-- C4 (corrected): when the naming strategy gives the configured fields
pairwise-distinct handler names, exactly one handler is generated per
configured field (the generated names are, in order, the names of the
configured fields); the handler of field `p0` is stored under its generated
name and carries the field's `updateType`, its `queryParam` defaulted to the
prop name, and its `type`; invoking it encodes the value by that type and
issues the single-field URL update with exactly those parameters. -/
theorem one_handler_per_field_when_names_distinct (chName : String → String)
    (cfg : QueryCfg) (encode : String → Val → Val) (loc : Option Location)
    (v : Val) (p0 : String × FieldCfg)
    (hnd : (cfg.map fun p => chName p.1).Nodup) (hmem : p0 ∈ cfg) :
    (genHandlers chName cfg).map Prod.fst =
        cfg.map (fun p => chName p.1) ∧
    getKey (genHandlers chName cfg) (chName p0.1) =
        some ⟨p0.2.updateType, p0.2.queryParam.getD p0.1, p0.2.type⟩ ∧
    generatedUrlChangeHandler encode
        ⟨p0.2.updateType, p0.2.queryParam.getD p0.1, p0.2.type⟩ loc v =
      ⟨p0.2.updateType, p0.2.queryParam.getD p0.1, encode p0.2.type v, loc⟩ :=
  ⟨genHandlers_names chName cfg hnd,
    getKey_genHandlers chName cfg hnd p0 hmem, rfl⟩

/-- C4 witness: a one-field config under the identity naming generates exactly
its one handler, which encodes and updates with the configured parameters. -/
theorem one_handler_per_field_when_names_distinct_witness :
    (genHandlers (fun s => s) [("foo", ⟨some "pushIn", some "q", "number"⟩)]
          ).map Prod.fst =
        ([("foo", ⟨some "pushIn", some "q", "number"⟩)] : QueryCfg).map
          (fun p => p.1) ∧
    getKey (genHandlers (fun s => s)
          [("foo", ⟨some "pushIn", some "q", "number"⟩)]) "foo" =
        some ⟨some "pushIn", "q", "number"⟩ ∧
    generatedUrlChangeHandler (fun _ v => v)
        ⟨some "pushIn", "q", "number"⟩ none "5" =
      ⟨some "pushIn", "q", "5", none⟩ :=
  one_handler_per_field_when_names_distinct (fun s => s)
    [("foo", ⟨some "pushIn", some "q", "number"⟩)] (fun _ v => v) none "5"
    ("foo", ⟨some "pushIn", some "q", "number"⟩) (by decide) (by decide)

/-- C7 (confirmed): with no custom naming function in the options and none in
the global config, the handler prop for a configured name is `onChange`
followed by the name with its first character upper-cased. -/
theorem default_change_handler_naming (propName : String) (c : Char)
    (cs : List Char) (h : propName.data = c :: cs) :
    resolveChangeHandlerName none none propName =
      "onChange" ++ String.mk (c.toUpper :: cs) := by
  simp only [resolveChangeHandlerName, Option.getD, defaultChangeHandlerName,
    h]
  apply String.ext
  simp

/-- C7 witness: `foo` is named `onChangeFoo`. -/
theorem default_change_handler_naming_witness :
    resolveChangeHandlerName none none "foo" = "onChangeFoo" :=
  (default_change_handler_naming "foo" 'f' ['o', 'o'] rfl).trans rfl

/-- C8 (confirmed): with no `urlPropsQueryConfig` the wrapper stays total and
disables the corresponding features — no decoder is created, no handlers are
generated, and `getUrlChangeHandlerProps` returns (with unchanged state) only
what `mapUrlChangeHandlersToProps` makes of the absent generated set, or
nothing at all. -/
theorem no_config_disables_features {π : Type}
    (urlQueryDecoder : QueryCfg → Query → Query) (auch : Option Bool)
    (chn : Option (String → String))
    (mapFn : Option (π → Option HandlerSet → Option HandlerSet))
    (global : GlobalConfig) (st : WrapperState) (p : π) :
    decodeQueryOf urlQueryDecoder none = none ∧
    getUrlChangeHandlerProps none auch chn mapFn global st p =
      (st,
        match mapFn with
        | some f => f p none
        | none => none) := by
  refine ⟨rfl, ?_⟩
  cases mapFn <;> rfl

/-- C9 (confirmed, updateUrlQuerySingle modelled from the spec): invoking a
generated handler issues a single-field update that writes the handler's
`queryParam` to the encoded value and leaves every other query field
unchanged. -/
theorem generated_handler_updates_only_its_field
    (encode : String → Val → Val) (h : Handler) (loc : Option Location)
    (v : Val) (q : Query) (k : String) (hk : k ≠ h.queryParam) :
    getKey
        (updateUrlQuerySingle
          (generatedUrlChangeHandler encode h loc v).updateType
          (generatedUrlChangeHandler encode h loc v).queryParam
          (generatedUrlChangeHandler encode h loc v).encodedValue q)
        k = getKey q k ∧
    getKey
        (updateUrlQuerySingle
          (generatedUrlChangeHandler encode h loc v).updateType
          (generatedUrlChangeHandler encode h loc v).queryParam
          (generatedUrlChangeHandler encode h loc v).encodedValue q)
        h.queryParam = some (encode h.type v) :=
  ⟨getKey_setKey_ne q h.queryParam k (encode h.type v) hk,
    getKey_setKey_self q h.queryParam (encode h.type v)⟩

/-- C9 witness: updating field `q` leaves field `other` untouched and writes
the encoded value into `q`. -/
theorem generated_handler_updates_only_its_field_witness :
    getKey
        (updateUrlQuerySingle
          (generatedUrlChangeHandler (fun _ v => v)
            ⟨some "replaceIn", "q", "t"⟩ none "new").updateType
          (generatedUrlChangeHandler (fun _ v => v)
            ⟨some "replaceIn", "q", "t"⟩ none "new").queryParam
          (generatedUrlChangeHandler (fun _ v => v)
            ⟨some "replaceIn", "q", "t"⟩ none "new").encodedValue
          [("q", "old"), ("other", "keep")])
        "other" = getKey [("q", "old"), ("other", "keep")] "other" ∧
    getKey
        (updateUrlQuerySingle
          (generatedUrlChangeHandler (fun _ v => v)
            ⟨some "replaceIn", "q", "t"⟩ none "new").updateType
          (generatedUrlChangeHandler (fun _ v => v)
            ⟨some "replaceIn", "q", "t"⟩ none "new").queryParam
          (generatedUrlChangeHandler (fun _ v => v)
            ⟨some "replaceIn", "q", "t"⟩ none "new").encodedValue
          [("q", "old"), ("other", "keep")])
        "q" = some ((fun _ v => v : String → Val → Val) "t" "new") :=
  generated_handler_updates_only_its_field (fun _ v => v)
    ⟨some "replaceIn", "q", "t"⟩ none "new" [("q", "old"), ("other", "keep")]
    "other" (by decide)

end ReactUrlQuery
